import Mathlib

/-!
Verification development for the pedal-dev PR-review agent and its
TypeScript fix-tooling.  Definitions are shallow embeddings of the
TypeScript source; theorems check the specification's claims against them.
-/

namespace Pedal

/-! ## Character-level helpers shared by the regex embeddings -/

/-- Match a literal character sequence at the head of the input; on success
return the remaining input (embedding of a literal segment of a JS regex). -/
def expectLit : List Char → List Char → Option (List Char)
  | [], s => some s
  | _ :: _, [] => none
  | c :: cs, x :: xs => if x = c then expectLit cs xs else none

/-- Maximal run of decimal digits at the head of the input: the greedy
semantics of a JS regular expression segment of one-or-more digits followed by
a non-digit literal.  Returns the run and the rest. -/
def digitRun (s : List Char) : List Char × List Char :=
  (s.takeWhile Char.isDigit, s.dropWhile Char.isDigit)

/-- Numeric value of a digit run, as JS parseInt with radix 10 computes it. -/
def digitsToNat (ds : List Char) : Nat :=
  ds.foldl (fun acc c => acc * 10 + (c.toNat - ('0').toNat)) 0

/-! ## C1 — ReviewEngineCore.isLineInHunk (src/agents/review-engine-core.ts) -/

/-- Try to match the hunk-header regular expression
of review-engine-core.ts (literal at-at, minus, digits, comma, digits,
space, plus, two captured digit runs, at-at) at the very start of the input.
On success returns the two captured numbers (new-side start and length) and
the input remaining after the match. -/
def matchHunkAt (s : List Char) : Option (Nat × Nat × List Char) := do
  let s1 ← expectLit (("@@ -").toList) s
  let (d1, s2) := digitRun s1
  if d1.isEmpty then none else
  let s3 ← expectLit ((",").toList) s2
  let (d2, s4) := digitRun s3
  if d2.isEmpty then none else
  let s5 ← expectLit ((" +").toList) s4
  let (d3, s6) := digitRun s5
  if d3.isEmpty then none else
  let s7 ← expectLit ((",").toList) s6
  let (d4, s8) := digitRun s7
  if d4.isEmpty then none else
  let s9 ← expectLit ((" @@").toList) s8
  some (digitsToNat d3, digitsToNat d4, s9)

/-- The repeated `hunkRegex.exec(patch)` loop of `isLineInHunk`: find the
leftmost match, record its captures, and continue searching strictly after
the matched text (JS global-flag semantics: matches never overlap).
Fuel-driven; fuel at least the input length completes the scan. -/
def scanHunksAux : Nat → List Char → List (Nat × Nat)
  | 0, _ => []
  | _ + 1, [] => []
  | fuel + 1, x :: xs =>
    match matchHunkAt (x :: xs) with
    | some (c, d, rest) =>
      (c, d) :: scanHunksAux fuel ((x :: xs).drop ((x :: xs).length - rest.length))
    | none => scanHunksAux fuel xs

/-- All hunk headers found by the non-overlapping left-to-right scan. -/
def scanHunks (patch : List Char) : List (Nat × Nat) :=
  scanHunksAux patch.length patch

/-- Embedding of `ReviewEngineCore.isLineInHunk`: the finding line is accepted
when some scanned hunk header with new-side start `c` and length `d`
satisfies `c ≤ line < c + d`. -/
def isLineInHunk (patch : List Char) (line : Nat) : Bool :=
  (scanHunks patch).any (fun cd => decide (cd.1 ≤ line) && decide (line < cd.1 + cd.2))

/-- The spec's wording for C1 (refinement side): the patch *contains* a hunk
header of the required form, somewhere, whose new-side range covers the line.
Stated over all suffix positions of the patch text. -/
def specHunkAccepts (patch : List Char) (line : Nat) : Bool :=
  (List.range (patch.length + 1)).any fun i =>
    match matchHunkAt (patch.drop i) with
    | some (c, d, _) => decide (c ≤ line) && decide (line < c + d)
    | none => false

/-! ## Review-engine data model (src/agents/review-engine-types.ts) -/

/-- One changed file of a pull request, as delivered by the hosting API. -/
structure PRFile where
  sha : String
  filename : String
  status : String
  additions : Nat
  deletions : Nat
  changes : Nat
  patch : String
  deriving DecidableEq, Repr

/-- Per-run filtering counters. -/
structure FilterStats where
  total : Nat
  reviewed : Nat
  ignored : Nat
  tooLarge : Nat
  deriving DecidableEq, Repr

/-- One issue parsed from the model's JSON reply.  Severity and category are
kept as raw strings, as the JSON parse performs no validation. -/
structure ReviewFinding where
  severity : String
  category : String
  filename : String
  message : String
  suggestion : String
  line : Option Nat
  deriving DecidableEq, Repr

/-! ## C3 — ReviewEngine.filterFiles (src/review-engine.ts) -/

/-- `MAX_FILE_CHANGES` of filterFiles. -/
def MAX_FILE_CHANGES : Nat := 800

/-- `MAX_FILES` of filterFiles. -/
def MAX_FILES : Nat := 15

/-- The ignore test of filterFiles: `ignorePatterns.some(p => p.test(f.filename))`,
with each compiled regular expression abstracted as its boolean test. -/
def matchesIgnore (ignorePatterns : List (String → Bool)) (f : PRFile) : Bool :=
  ignorePatterns.any (fun pat => pat f.filename)

/-- One step of the filtering pass: the body of the `files.filter` callback,
threading the two skip counters it increments. -/
def filterStep (ignorePatterns : List (String → Bool))
    (acc : List PRFile × Nat × Nat) (f : PRFile) : List PRFile × Nat × Nat :=
  let (kept, ign, big) := acc
  if matchesIgnore ignorePatterns f then (kept, ign + 1, big)
  else if MAX_FILE_CHANGES ≤ f.changes then (kept, ign, big + 1)
  else (kept ++ [f], ign, big)

/-- Embedding of `ReviewEngine.filterFiles`: one pass dropping ignored and
oversized files while counting them, then truncation to `MAX_FILES`, and the
final `FilterStats` record. -/
def filterFiles (ignorePatterns : List (String → Bool)) (files : List PRFile) :
    List PRFile × FilterStats :=
  let acc := files.foldl (filterStep ignorePatterns) ([], 0, 0)
  let result := acc.1.take MAX_FILES
  (result, { total := files.length, reviewed := result.length,
             ignored := acc.2.1, tooLarge := acc.2.2 })

/-! ## C4 / C5 — ReviewEngine.mergeFindings and helpers (src/unnamed/part_011) -/

/-- The dedup key template of `deduplicateFindings`:
filename, line and category joined with colons; an absent line renders as
the text "undefined", as a JS template literal does. -/
def findingKey (f : ReviewFinding) : String :=
  f.filename ++ (":") ++ (match f.line with
    | none => ("undefined")
    | some n => toString n) ++ (":") ++ f.category

/-- The Map-driven loop of `deduplicateFindings`: keep the first finding seen
for each key, in first-seen order. -/
def dedupAux : List String → List ReviewFinding → List ReviewFinding
  | _, [] => []
  | seen, f :: rest =>
    if findingKey f ∈ seen then dedupAux seen rest
    else f :: dedupAux (findingKey f :: seen) rest

/-- Embedding of `ReviewEngine.deduplicateFindings`. -/
def deduplicateFindings (findings : List ReviewFinding) : List ReviewFinding :=
  dedupAux [] findings

/-- Embedding of `ReviewEngine.isSameFinding`: same filename, same category,
line numbers (absent treated as 0) within 2 of each other. -/
def isSameFinding (f1 f2 : ReviewFinding) : Bool :=
  f1.filename == f2.filename &&
    ((f1.line.getD 0 : Int) - (f2.line.getD 0 : Int)).natAbs ≤ 2 &&
    f1.category == f2.category

/-- `Math.ceil(runs.length / 2)` of the majority branch. -/
def majorityThreshold (n : Nat) : Nat := (n + 1) / 2

/-- Embedding of `ReviewEngine.mergeFindings` with its string-keyed strategy
dispatch (union / intersection / majority / default flatten). -/
def mergeFindings (runs : List (List ReviewFinding)) (strategy : String) :
    List ReviewFinding :=
  if strategy = ("union") then
    deduplicateFindings runs.flatten
  else if strategy = ("intersection") then
    match runs with
    | [] => []
    | first :: _ =>
      first.filter (fun f1 => runs.all (fun run => run.any (fun f2 => isSameFinding f1 f2)))
  else if strategy = ("majority") then
    let all := runs.flatten
    let threshold := majorityThreshold runs.length
    (deduplicateFindings all).filter (fun finding =>
      threshold ≤ (runs.filter (fun run => run.any (fun f => isSameFinding finding f))).length)
  else
    runs.flatten

/-! ## C8 — ReviewEngine.parseReviewResponse (src/unnamed/part_011, src/review-engine.ts) -/

/-- JS String.trim whitespace test (ASCII subset; all whitespace the inputs
of this development contain). -/
def isJsWhitespace (c : Char) : Bool :=
  c = (' ') || c = ('\t') || c = ('\n') || c = ('\r') || c = ('\x0b') || c = ('\x0c')

/-- JS `String.trim`: strip whitespace from both ends. -/
def trimList (s : List Char) : List Char :=
  ((s.dropWhile isJsWhitespace).reverse.dropWhile isJsWhitespace).reverse

/-- The three-backtick fence marker. -/
def fenceMarker : List Char := ("```").toList

/-- The leading-fence removal of parseReviewResponse: when the text starts
with a fence, drop up to the first newline (keeping it) and trim; when the
fence line never ends, leave the text unchanged. -/
def stripLeadingFence (s : List Char) : List Char :=
  if fenceMarker.isPrefixOf s then
    let rest := s.dropWhile (fun c => c ≠ ('\n'))
    if rest.isEmpty then s else trimList rest
  else s

/-- The trailing-fence removal of parseReviewResponse: when the text ends with
a fence, cut at the last occurrence of the marker (its first character
position is length minus three) and trim. -/
def stripTrailingFence (s : List Char) : List Char :=
  if fenceMarker.isSuffixOf s then trimList (s.take (s.length - 3))
  else s

/-- The bracket-extraction guardrail: the substring from the first opening
bracket through the last closing bracket, inclusive; none when no such
non-degenerate pair exists (indexOf / lastIndexOf returning -1, or the
last closing bracket not after the first opening one). -/
def extractArr (s : List Char) : Option (List Char) :=
  let fromOpen := s.dropWhile (fun c => c ≠ ('['))
  let candidate := (fromOpen.reverse.dropWhile (fun c => c ≠ (']'))).reverse
  if candidate.isEmpty then none else some candidate

/-- The full string massaging of parseReviewResponse before the JSON step:
trim, strip a leading fence, strip a trailing fence. -/
def massageResponse (raw : List Char) : List Char :=
  stripTrailingFence (stripLeadingFence (trimList raw))

/-- Embedding of `ReviewEngine.parseReviewResponse`.  The JSON array parse is
abstracted as `jp` (the code delegates to JSON.parse and catches); a failed
extraction or a failed parse yields the empty finding list. -/
def parseReviewResponse (jp : List Char → Option (List ReviewFinding))
    (raw : List Char) : List ReviewFinding :=
  match extractArr (massageResponse raw) with
  | none => []
  | some candidate => (jp candidate).getD []

/-! ## Smartfix data model (src/scripts/smartfix/types, rules/ruleset.ts) -/

/-- One parsed TypeScript compiler diagnostic. -/
structure TSError where
  file : String
  line : Nat
  column : Nat
  code : String
  message : String
  context : String
  deriving DecidableEq, Repr

/-- A bucket of diagnostics sharing a code and normalized pattern. -/
structure ErrorGroup where
  code : String
  pattern : String
  errors : List TSError
  count : Nat
  deriving DecidableEq, Repr

/-! ## C2 — groupErrors (src/scripts/smartfix/mrfixit.ts) -/

/-- The pattern normalization switch of groupErrors: a human label for six
known codes, the raw message otherwise. -/
def normalizePattern (e : TSError) : String :=
  if e.code = ("TS2835") ∨ e.code = ("TS2834") then ("Missing file extension in import")
  else if e.code = ("TS7006") then ("Implicit any type")
  else if e.code = ("TS2307") then ("Cannot find module")
  else if e.code = ("TS7016") then ("Missing type declarations")
  else if e.code = ("TS2339") then ("Property does not exist")
  else if e.code = ("TS2304") then ("Cannot find name")
  else e.message

/-- The Map key of groupErrors: code and pattern joined by a colon. -/
def errorGroupKey (code pattern : String) : String := code ++ (":") ++ pattern

/-- Insert one error into the insertion-ordered group list, extending the
group with the same key or appending a fresh group of count 1. -/
def insertError (gs : List ErrorGroup) (e : TSError) : List ErrorGroup :=
  match gs with
  | [] => [{ code := e.code, pattern := normalizePattern e, errors := [e], count := 1 }]
  | g :: rest =>
    if errorGroupKey g.code g.pattern = errorGroupKey e.code (normalizePattern e) then
      { g with errors := g.errors ++ [e], count := g.count + 1 } :: rest
    else g :: insertError rest e

/-- Stable descending insertion by count: a group moves past exactly the
groups of strictly larger count, as the stable JS sort with comparator
b.count minus a.count orders them. -/
def insertGroupDesc (g : ErrorGroup) : List ErrorGroup → List ErrorGroup
  | [] => [g]
  | h :: t => if g.count < h.count then h :: insertGroupDesc g t else g :: h :: t

/-- Stable sort of the groups by descending count. -/
def sortGroupsDesc : List ErrorGroup → List ErrorGroup
  | [] => []
  | g :: rest => insertGroupDesc g (sortGroupsDesc rest)

/-- Embedding of `groupErrors`: bucket by code-and-pattern key in insertion
order, then stable-sort by descending count. -/
def groupErrors (errors : List TSError) : List ErrorGroup :=
  sortGroupsDesc (errors.foldl insertError [])

/-! ## Regex embeddings for the rule table (src/scripts/smartfix/rules/ruleset.ts) -/

/-- JS word character (the backslash-w class without the unicode flag). -/
def isWordChar (c : Char) : Bool :=
  (('a') ≤ c && c ≤ ('z')) || (('A') ≤ c && c ≤ ('Z')) ||
  (('0') ≤ c && c ≤ ('9')) || c = ('_')

/-- Maximal run of word characters (greedy one-or-more word segment). -/
def wordRun (s : List Char) : List Char × List Char :=
  (s.takeWhile isWordChar, s.dropWhile isWordChar)

/-- Leftmost-match search: try the position matcher at every suffix, left to
right, as an unanchored JS regular expression does. -/
def scanExtract {α : Type} (matchAt : List Char → Option α) : List Char → Option α
  | [] => matchAt []
  | c :: rest =>
    match matchAt (c :: rest) with
    | some r => some r
    | none => scanExtract matchAt rest

/-- A quoted single-word capture: literal opening text, a nonempty word run,
then a closing apostrophe followed by the given literal tail. -/
def quotedWordAt (opening tail : List Char) (s : List Char) : Option String := do
  let s1 ← expectLit opening s
  let (w, s2) := wordRun s1
  if w.isEmpty then none else
  let _ ← expectLit tail s2
  some (String.mk w)

/-- The greedy dot-plus capture closed by an apostrophe: everything up to the
last apostrophe of the current line (the dot never crosses a newline), which
must leave a nonempty capture. -/
def dotPlusThenQuote (s : List Char) : Option String :=
  let pre := s.takeWhile (fun c => c ≠ ('\n'))
  let upto := (pre.reverse.dropWhile (fun c => c ≠ ('\x27'))).reverse
  match upto with
  | [] => none
  | _ =>
    let cap := upto.dropLast
    if cap.isEmpty then none else some (String.mk cap)

/-- Capture of the TS2339 pattern: property and type names. -/
def ts2339MatchAt (s : List Char) : Option (String × String) := do
  let s1 ← expectLit (("Property '").toList) s
  let (w1, s2) := wordRun s1
  if w1.isEmpty then none else
  let s3 ← expectLit (("' does not exist on type '").toList) s2
  let (w2, s4) := wordRun s3
  if w2.isEmpty then none else
  let _ ← expectLit (("'").toList) s4
  some (String.mk w1, String.mk w2)

/-- First match of the TS2339 pattern anywhere in the message. -/
def ts2339Extract (msg : String) : Option (String × String) :=
  scanExtract ts2339MatchAt msg.toList

/-- First match of the TS7006 parameter pattern. -/
def paramExtract (msg : String) : Option String :=
  scanExtract (quotedWordAt (("Parameter '").toList) (("' implicitly").toList)) msg.toList

/-- First match of the TS2304 missing-name pattern: the captured word run
must be closed by an apostrophe, as in the source regular expression. -/
def nameExtract (msg : String) : Option String :=
  scanExtract (quotedWordAt (("Cannot find name '").toList) (("'").toList)) msg.toList

/-- Position matcher for the TS2307 module pattern. -/
def moduleMatchAt (s : List Char) : Option String := do
  let s1 ← expectLit (("Cannot find module '").toList) s
  dotPlusThenQuote s1

/-- First match of the TS2307 missing-module pattern. -/
def moduleExtract (msg : String) : Option String :=
  scanExtract moduleMatchAt msg.toList

/-- Position matcher for the TS7016 declaration-file pattern. -/
def declMatchAt (s : List Char) : Option String := do
  let s1 ← expectLit (("Could not find a declaration file for module '").toList) s
  dotPlusThenQuote s1

/-- First match of the TS7016 declaration-file pattern. -/
def declExtract (msg : String) : Option String :=
  scanExtract declMatchAt msg.toList

/-! ## Fix results and the rule table -/

inductive Confidence where
  | high
  | medium
  | low
  deriving DecidableEq, Repr

inductive FixType where
  | batchEdit
  | command
  | manual
  deriving DecidableEq, Repr

/-- One per-file instruction of a FixResult (the lines field is optional in
the source and omitted by one rule). -/
structure FileChange where
  path : String
  instruction : String
  lines : Option (List Nat)
  deriving DecidableEq, Repr

/-- The output of analyzing one error group. -/
structure FixResult where
  confidence : Confidence
  fixType : FixType
  description : String
  fileChanges : Option (List FileChange)
  commands : Option (List String)
  manualSteps : Option (List String)
  deriving DecidableEq, Repr

/-- A rule of the table: applicable codes, an optional message test (the
regular expression's test method), and the analysis function. -/
structure ErrorRule where
  codes : List String
  pattern : Option (String → Bool)
  analyze : ErrorGroup → FixResult

/-- The first error's message of a group (the source reads errors at index
zero; groups produced by groupErrors are never empty). -/
def firstErrorMessage (g : ErrorGroup) : String :=
  match g.errors with
  | [] => ("")
  | e :: _ => e.message

/-- Comma-space join of line numbers, as `lines.join(', ')`. -/
def joinLines (lines : List Nat) : String :=
  String.intercalate (", ") (lines.map toString)

/-- Rule 1 helper: group a code's errors by file in insertion order,
collecting the affected lines per file. -/
def fileLinesInsert (m : List (String × List Nat)) (file : String) (line : Nat) :
    List (String × List Nat) :=
  match m with
  | [] => [(file, [line])]
  | (f, ls) :: rest =>
    if f = file then (f, ls ++ [line]) :: rest
    else (f, ls) :: fileLinesInsert rest file line

/-- The per-file map of rule 1. -/
def rule1FileMap (errs : List TSError) : List (String × List Nat) :=
  errs.foldl (fun m e => fileLinesInsert m e.file e.line) []

/-- Rule 1 (TS2835 / TS2834): batch-add missing .js extensions. -/
def rule1Analyze (g : ErrorGroup) : FixResult :=
  let fileMap := rule1FileMap g.errors
  let fileChanges := fileMap.map (fun fl =>
    { path := fl.1,
      instruction := ("Add .js extension to all relative import statements on lines: ") ++
        joinLines fl.2 ++
        (". Change patterns like \"from './foo'\" to \"from './foo.js'\" and \"from '../bar/baz'\" to \"from '../bar/baz.js'\""),
      lines := some fl.2 : FileChange })
  { confidence := .high, fixType := .batchEdit,
    description := ("Add .js extensions to ") ++ toString g.errors.length ++
      (" import statements across ") ++ toString fileMap.length ++ (" files"),
    fileChanges := some fileChanges, commands := none, manualSteps := none }

/-- Rule 2 (TS7006): annotate implicitly-any parameters. -/
def rule2Analyze (g : ErrorGroup) : FixResult :=
  let fileChanges := g.errors.map (fun err =>
    let paramName := (paramExtract err.message).getD ("parameter")
    { path := err.file,
      instruction := ("Add explicit type annotation to parameter '") ++ paramName ++
        ("' on line ") ++ toString err.line ++
        (". Common types: string, number, any, or a specific interface type."),
      lines := some [err.line] : FileChange })
  { confidence := .medium, fixType := .batchEdit,
    description := ("Add type annotations to ") ++ toString g.errors.length ++
      (" parameters with implicit 'any'"),
    fileChanges := some fileChanges, commands := none, manualSteps := none }

/-- Rule 3 (TS2339): the known base-class-visibility defect for four property
names, a manual investigation otherwise. -/
def rule3Analyze (g : ErrorGroup) : FixResult :=
  let pt := (ts2339Extract (firstErrorMessage g)).getD (("undefined"), ("undefined"))
  let prop := pt.1
  let ty := pt.2
  if prop ∈ [("host"), ("model"), ("maxOutputTokens"), ("temperature")] then
    { confidence := .high, fixType := .batchEdit,
      description := ("Change private properties to protected in base class so subclasses can access them"),
      fileChanges := some [{
        path := ("src/providers/api-provider-base.ts"),
        instruction := ("In the constructor, change all 'private host', 'private model' declarations to 'protected host', 'protected model'. Keep 'public maxOutputTokens' as is."),
        lines := none }],
      commands := none, manualSteps := none }
  else
    { confidence := .low, fixType := .manual,
      description := ("Property '") ++ prop ++ ("' cannot be accessed on '") ++ ty ++ ("'"),
      fileChanges := none, commands := none,
      manualSteps := some [
        ("Check if '") ++ prop ++ ("' should be public or protected instead of private"),
        ("Verify '") ++ prop ++ ("' exists in the '") ++ ty ++ ("' class/interface"),
        ("Consider if '") ++ prop ++ ("' needs to be added to '") ++ ty ++ ("'")] }

/-- Rule 4 (TS2304): the known missing LLMProvider import, a manual check
otherwise. -/
def rule4Analyze (g : ErrorGroup) : FixResult :=
  let name := (nameExtract (firstErrorMessage g)).getD ("undefined")
  if name = ("LLMProvider") then
    { confidence := .high, fixType := .batchEdit,
      description := ("Add missing import for '") ++ name ++ ("' to ") ++
        toString g.errors.length ++ (" files"),
      fileChanges := some (g.errors.map (fun err =>
        { path := err.file,
          instruction := ("Add import statement at top of file: import \x7b LLMProvider \x7d from './llm-provider.interface.js';"),
          lines := some [1] : FileChange })),
      commands := none, manualSteps := none }
  else
    { confidence := .medium, fixType := .manual,
      description := ("Cannot find name '") ++ name ++ ("' - likely missing import or typo"),
      fileChanges := none, commands := none,
      manualSteps := some [
        ("Check if '") ++ name ++ ("' is imported from the correct module"),
        ("Verify spelling of '") ++ name ++ ("'"),
        ("Check if '") ++ name ++ ("' is exported from its source file")] }

/-- Rule 5 (TS2307): install a types package, install a dependency, or add a
.js suffix to a relative import. -/
def rule5Analyze (g : ErrorGroup) : FixResult :=
  let moduleName := (moduleExtract (firstErrorMessage g)).getD ("")
  if moduleName.startsWith ("@types/") then
    { confidence := .high, fixType := .command,
      description := ("Install missing type declarations for '") ++
        (moduleName.drop 7) ++ ("'"),
      fileChanges := none,
      commands := some [("bun add -d ") ++ moduleName], manualSteps := none }
  else if ¬ moduleName.startsWith (".") then
    if moduleName = ("@octokit/rest") then
      { confidence := .high, fixType := .command,
        description := ("Install missing dependency '@octokit/rest'"),
        fileChanges := none,
        commands := some [("bun add @octokit/rest")], manualSteps := none }
    else
      { confidence := .medium, fixType := .command,
        description := ("Install missing package '") ++ moduleName ++ ("'"),
        fileChanges := none,
        commands := some [("bun add ") ++ moduleName], manualSteps := none }
  else
    { confidence := .high, fixType := .batchEdit,
      description := ("Add .js extension to relative import"),
      fileChanges := some (g.errors.map (fun err =>
        { path := err.file,
          instruction := ("On line ") ++ toString err.line ++ (", change import from '") ++
            moduleName ++ ("' to '") ++ moduleName ++ (".js'"),
          lines := some [err.line] : FileChange })),
      commands := none, manualSteps := none }

/-- Rule 6 (TS7016): install the matching types package. -/
def rule6Analyze (g : ErrorGroup) : FixResult :=
  let moduleName := (declExtract (firstErrorMessage g)).getD ("")
  let typePackage :=
    if moduleName = ("js-yaml") then ("@types/js-yaml")
    else if moduleName = ("express") then ("@types/express")
    else if moduleName = ("node") then ("@types/node")
    else ("@types/") ++ moduleName
  { confidence := .high, fixType := .command,
    description := ("Install type declarations for '") ++ moduleName ++ ("'"),
    fileChanges := none,
    commands := some [("bun add -d ") ++ typePackage], manualSteps := none }

/-- The ordered rule table `TS_ERROR_RULES`. -/
def TS_ERROR_RULES : List ErrorRule := [
  { codes := [("TS2835"), ("TS2834")], pattern := none, analyze := rule1Analyze },
  { codes := [("TS7006")], pattern := none, analyze := rule2Analyze },
  { codes := [("TS2339")], pattern := some (fun m => (ts2339Extract m).isSome),
    analyze := rule3Analyze },
  { codes := [("TS2304")], pattern := some (fun m => (nameExtract m).isSome),
    analyze := rule4Analyze },
  { codes := [("TS2307")], pattern := some (fun m => (moduleExtract m).isSome),
    analyze := rule5Analyze },
  { codes := [("TS7016")], pattern := some (fun m => (declExtract m).isSome),
    analyze := rule6Analyze }]

/-! ## C10 — analyzeWithRules (src/scripts/smartfix/engines/rules.ts) -/

/-- The per-group rule match of analyzeWithRules: the code must be listed,
and a pattern (when present) must match the first error's message. -/
def ruleMatches (r : ErrorRule) (g : ErrorGroup) : Bool :=
  r.codes.contains g.code &&
    (match r.pattern with
     | some test => test (firstErrorMessage g)
     | none => true)

/-- The first matching rule of the ordered table. -/
def findMatchingRule (g : ErrorGroup) : Option ErrorRule :=
  TS_ERROR_RULES.find? (fun r => ruleMatches r g)

/-- The dispatcher's result: matched groups with their fixes, and unmatched
groups for escalation. -/
structure RulesEngineResult where
  fixes : List (ErrorGroup × FixResult)
  unknown : List ErrorGroup
  deriving Repr

/-- Embedding of `analyzeWithRules`: route every group, in order, either to
the first matching rule's analysis or to the unknown list. -/
def analyzeWithRules : List ErrorGroup → RulesEngineResult
  | [] => { fixes := [], unknown := [] }
  | g :: rest =>
    let r := analyzeWithRules rest
    match findMatchingRule g with
    | some rule => { fixes := (g, rule.analyze g) :: r.fixes, unknown := r.unknown }
    | none => { fixes := r.fixes, unknown := g :: r.unknown }

/-! ## C6 — ConfigLoader.createProvider (src/config-loader.ts) -/

/-- Per-provider connection facts. -/
structure ProviderConfig where
  host : Option String
  api_key_env : Option String
  base_url : Option String
  models : List String
  deriving DecidableEq, Repr

/-- The llm block of the workflow configuration. -/
structure LLMConfig where
  default_provider : String
  default_model : String
  providers : List (String × ProviderConfig)
  deriving DecidableEq, Repr

/-- One named agent (only the fields the provider-resolution path reads). -/
structure Agent where
  model : String
  context : Option String
  deriving DecidableEq, Repr

/-- The root workflow configuration (restricted to the fields the
provider-resolution path reads). -/
structure AgentConfig where
  llm : LLMConfig
  agents : List (String × Agent)
  deriving DecidableEq, Repr

/-- A constructed provider instance, one constructor per vendor adapter. -/
inductive ProviderInstance where
  | ollama (host model : String)
  | anthropic (key model : String)
  | openai (key model : String)
  | openrouter (key model : String) (baseUrl : Option String)
  | gemini (key model : String)
  deriving DecidableEq, Repr

/-- The resolved model name carried by a provider instance. -/
def ProviderInstance.modelName : ProviderInstance → String
  | .ollama _ m => m
  | .anthropic _ m => m
  | .openai _ m => m
  | .openrouter _ m _ => m
  | .gemini _ m => m

/-- The process environment; a variable set to the empty string counts as
absent, as the JS falsiness test treats it. -/
def envGet (env : String → Option String) (k : String) : Option String :=
  match env k with
  | some v => if v = ("") then none else some v
  | none => none

/-- JS String.split with a one-character separator, on character lists. -/
def splitOnChar (c : Char) : List Char → List (List Char)
  | [] => [[]]
  | x :: xs =>
    let r := splitOnChar c xs
    if x = c then [] :: r
    else
      match r with
      | [] => [[x]]
      | y :: ys => (x :: y) :: ys

/-- The model split of createProvider: `agent.model.split(':')`; with more
than one segment the first is the provider and the rest are rejoined with a
colon (model names containing colons survive), otherwise the default provider
is used and the whole string is the model. -/
def splitAgentModel (defaultProvider model : String) : String × String :=
  match (splitOnChar (':') model.toList).map String.mk with
  | [_] => (defaultProvider, model)
  | p :: rest => (p, String.intercalate (":") rest)
  | [] => (defaultProvider, model)

/-- Embedding of `ConfigLoader.checkModelAvailability`: membership of the
model name in the provider's declared list. -/
def checkModelAvailability (pc : ProviderConfig) (modelName : String) : Bool :=
  pc.models.contains modelName

/-- Embedding of `ConfigLoader.instantiateProvider`: construct the vendor
adapter, reading required API keys from the environment. -/
def instantiateProvider (env : String → Option String) (providerName modelName : String)
    (pc : ProviderConfig) : Except String ProviderInstance :=
  if providerName = ("ollama") then
    .ok (.ollama (pc.host.getD ("http://localhost:11434")) modelName)
  else if providerName = ("anthropic") then
    match envGet env (pc.api_key_env.getD ("ANTHROPIC_API_KEY")) with
    | some k => .ok (.anthropic k modelName)
    | none => .error ((pc.api_key_env.getD ("ANTHROPIC_API_KEY")) ++ (" not set"))
  else if providerName = ("openai") then
    match envGet env (pc.api_key_env.getD ("OPENAI_API_KEY")) with
    | some k => .ok (.openai k modelName)
    | none => .error ((pc.api_key_env.getD ("OPENAI_API_KEY")) ++ (" not set"))
  else if providerName = ("openrouter") then
    match envGet env (pc.api_key_env.getD ("OPENROUTER_API_KEY")) with
    | some k => .ok (.openrouter k modelName pc.base_url)
    | none => .error ((pc.api_key_env.getD ("OPENROUTER_API_KEY")) ++ (" not set"))
  else if providerName = ("google") then
    match envGet env (pc.api_key_env.getD ("GOOGLE_API_KEY")) with
    | some k => .ok (.gemini k modelName)
    | none => .error ((pc.api_key_env.getD ("GOOGLE_API_KEY")) ++ (" not set"))
  else .error (("Unknown provider: ") ++ providerName)

/-- Embedding of `ConfigLoader.createProvider`.  Besides the instance it
returns the number of model-fallback warnings the call logs: one when the
requested model is absent and the default is substituted, a second when the
default is itself absent (processing continues regardless). -/
def createProvider (cfg : AgentConfig) (env : String → Option String)
    (agentName : String) : Except String (ProviderInstance × Nat) :=
  match cfg.agents.lookup agentName with
  | none => .error (("Agent not found: ") ++ agentName)
  | some agent =>
    let pm := splitAgentModel cfg.llm.default_provider agent.model
    match cfg.llm.providers.lookup pm.1 with
    | none => .error (("Provider not found: ") ++ pm.1)
    | some pc =>
      let fw :=
        if checkModelAvailability pc pm.2 then (pm.2, 0)
        else if checkModelAvailability pc cfg.llm.default_model then (cfg.llm.default_model, 1)
        else (cfg.llm.default_model, 2)
      match instantiateProvider env pm.1 fw.1 pc with
      | .ok inst => .ok (inst, fw.2)
      | .error e => .error e

/-! ## C9 — webhook shell dedup lifecycle (src/index.ts) -/

/-- How one scheduled review task ends: the review succeeds, fails with the
error comment posted, or fails with even the error comment failing. -/
inductive ReviewOutcome where
  | success
  | reviewFailed
  | reviewFailedCommentFailed
  deriving DecidableEq, Repr

/-- The observable state of the webhook shell: the in-memory processing set,
the queue of scheduled (setImmediate) tasks, the log of review invocations,
and the count of posted error comments. -/
structure ShellState where
  processing : List String
  scheduled : List String
  reviewsStarted : List String
  errorComments : Nat
  deriving DecidableEq, Repr

/-- The empty shell state at process start. -/
def initialShellState : ShellState :=
  { processing := [], scheduled := [], reviewsStarted := [], errorComments := 0 }

/-- The synchronous part of the pull_request handler: a delivery whose key is
already in the processing set returns immediately with nothing changed;
otherwise the key is added and the review work is scheduled. -/
def handleDelivery (st : ShellState) (key : String) : ShellState :=
  if st.processing.contains key then st
  else { st with processing := key :: st.processing, scheduled := st.scheduled ++ [key] }

/-- The scheduled task body: invoke the review, post an error comment when the
review failed and the comment post itself succeeds, and in the finally block
remove the key from the processing set — the same removal on every outcome. -/
def runScheduled (st : ShellState) (key : String) (o : ReviewOutcome) : ShellState :=
  let started := { st with scheduled := st.scheduled.erase key,
                           reviewsStarted := st.reviewsStarted ++ [key] }
  let afterCatch :=
    match o with
    | .success => started
    | .reviewFailed => { started with errorComments := started.errorComments + 1 }
    | .reviewFailedCommentFailed => started
  { afterCatch with processing := afterCatch.processing.erase key }

/-! ## Proof-support definitions -/

/-- The seen-key set of the dedup loop after processing a list (used to
reason about `dedupAux` on appended lists). -/
def dedupSeenAfter : List String → List ReviewFinding → List String
  | seen, [] => seen
  | seen, f :: rest =>
    if findingKey f ∈ seen then dedupSeenAfter seen rest
    else dedupSeenAfter (findingKey f :: seen) rest

/-! ## Concrete example inputs for witnesses and counterexamples -/

/-- A diff whose only content is a single hunk header and two added lines. -/
def examplePatch : List Char := ("@@ -10,5 +20,8 @@\n+line one\n+line two").toList

/-- A patch with no hunk header at all. -/
def headerlessPatch : List Char := ("+just an added line\n-and a removed one").toList

/-- A patch in which a second hunk header overlaps the end of a first match:
it contains the header substring starting at its thirteenth character. -/
def overlapPatch : List Char := ("@@ -1,1 +1,1 @@ -9,9 +20,8 @@").toList

/-- A TS2835 diagnostic. -/
def exErr2835 : TSError :=
  { file := ("a.ts"), line := 3, column := 1, code := ("TS2835"),
    message := ("Relative import paths need explicit file extensions"), context := ("") }

/-- A TS2834 diagnostic. -/
def exErr2834 : TSError :=
  { file := ("b.ts"), line := 7, column := 1, code := ("TS2834"),
    message := ("Relative import paths need explicit file extensions"), context := ("") }

/-- The C2 example log: fifteen TS2835 and five TS2834 diagnostics. -/
def exLogC2 : List TSError := List.replicate 15 exErr2835 ++ List.replicate 5 exErr2834

/-- A pull-request file with the given name and change count. -/
def mkFile (name : String) (ch : Nat) : PRFile :=
  { sha := (""), filename := name, status := ("modified"), additions := ch,
    deletions := 0, changes := ch, patch := ("") }

/-- The C3 example ignore patterns: the three documentation files. -/
def exPatsC3 : List (String → Bool) :=
  [fun s => s = ("doc1.md") || s = ("doc2.md") || s = ("doc3.md")]

/-- The C3 example input: twenty files of which three match the ignore
pattern and two are oversized. -/
def exFilesC3 : List PRFile :=
  [mkFile ("doc1.md") 10, mkFile ("doc2.md") 10, mkFile ("doc3.md") 10,
   mkFile ("big1.ts") 900, mkFile ("big2.ts") 850] ++
  (List.range 15).map (fun i => mkFile (("f") ++ toString i ++ (".ts")) 10)

/-- A finding used in the merge examples. -/
def mkFinding (file : String) (line : Nat) (cat : String) : ReviewFinding :=
  { severity := ("high"), category := cat, filename := file,
    message := ("m"), suggestion := ("s"), line := some line }

/-- Three passes for the C4 witness: the first finding fuzzy-matches in two
passes, the second in only one. -/
def exRunsC4 : List (List ReviewFinding) :=
  [[mkFinding ("a.ts") 10 ("bug"), mkFinding ("b.ts") 5 ("security")],
   [mkFinding ("a.ts") 11 ("bug")],
   [mkFinding ("c.ts") 1 ("performance")]]

/-- The C6 example configuration: an ollama provider whose models list has
neither the agent's requested model nor the default model. -/
def exCfgC6 : AgentConfig :=
  { llm := { default_provider := ("ollama"), default_model := ("codellama"),
             providers := [(("ollama"),
               { host := none, api_key_env := none, base_url := none,
                 models := [("llama3")] })] },
    agents := [(("pr-review"),
      { model := ("ollama:qwen2.5-coder:14b"), context := none })] }

/-- A TS2339 group whose property is the known base-class case. -/
def exG2339Host : ErrorGroup :=
  { code := ("TS2339"), pattern := ("Property does not exist"),
    errors := [⟨("src/providers/ollama.ts"), 12, 3, ("TS2339"),
      ("Property 'host' does not exist on type 'OllamaProvider'"), ("")⟩],
    count := 1 }

/-- A TS2339 group with an unknown property name. -/
def exG2339Foo : ErrorGroup :=
  { code := ("TS2339"), pattern := ("Property does not exist"),
    errors := [⟨("src/x.ts"), 4, 1, ("TS2339"),
      ("Property 'foo' does not exist on type 'Bar'"), ("")⟩],
    count := 1 }

/-- A group no rule covers. -/
def exUnknownGroup : ErrorGroup :=
  { code := ("TS9999"), pattern := ("Some other problem"),
    errors := [⟨("z.ts"), 1, 1, ("TS9999"), ("Some other problem"), ("")⟩],
    count := 1 }

/-- A JSON-parse stand-in for the C8 witness: accepts only the empty array. -/
def exJsonParse : List Char → Option (List ReviewFinding) :=
  fun t => if t = ("[]").toList then some [] else none

/-- The preamble of the wrapped-response family, ending in an opening code
fence line. -/
def preText : List Char := ("Here you go:\n```json\n").toList

/-- The postamble of the wrapped-response family, starting with the closing
code fence line. -/
def postText : List Char := ("\n```\nThanks!").toList

/-- A JSON array text with the given interior characters. -/
def arrOf (mid : List Char) : List Char := ('[') :: mid ++ [(']')]

/-- A model response wrapping the array in a fence with preamble and
postamble prose. -/
def wrapResponse (mid : List Char) : List Char :=
  preText ++ (('[') :: (mid ++ ((']') :: postText)))

/-! # Theorems -/

/-! ## C2 — error-group pattern normalization -/

/-- C2 counterexample: for a log of fifteen TS2835 and five TS2834
diagnostics, `groupErrors` does not merge the two codes into a single group
of count 20 — the Map key is code-and-pattern, so two groups arise and no
group has count 20. -/
theorem c2_grouping_counterexample :
    (groupErrors exLogC2).length = 2 ∧
    ¬ ∃ g ∈ groupErrors exLogC2, g.count = 20 := by
  decide

/-- C2 amended: the two codes share the normalized pattern "Missing file
extension in import" but stay in separate groups keyed by code-and-pattern,
with counts 15 and 5, the larger first after the descending-count sort. -/
theorem c2_grouping_amended :
    groupErrors exLogC2 =
      [{ code := ("TS2835"), pattern := ("Missing file extension in import"),
         errors := List.replicate 15 exErr2835, count := 15 },
       { code := ("TS2834"), pattern := ("Missing file extension in import"),
         errors := List.replicate 5 exErr2834, count := 5 }] := by
  decide

/-! ## C3 — file filtering determinism -/

/-- The filtering pass characterized: kept files are the non-ignored,
non-oversized ones in order, and the two counters count exactly the ignored
files and the non-ignored oversized files. -/
theorem filterStep_foldl (pats : List (String → Bool)) :
    ∀ (files : List PRFile) (kept : List PRFile) (ign big : Nat),
      files.foldl (filterStep pats) (kept, ign, big) =
        (kept ++ files.filter (fun f => !(matchesIgnore pats f) && decide (f.changes < MAX_FILE_CHANGES)),
         ign + files.countP (fun f => matchesIgnore pats f),
         big + files.countP (fun f => !(matchesIgnore pats f) && decide (MAX_FILE_CHANGES ≤ f.changes))) := by
  intro files
  induction files with
  | nil => intro kept ign big; simp
  | cons f rest ih =>
    intro kept ign big
    by_cases h1 : matchesIgnore pats f
    · simp [List.foldl_cons, filterStep, h1, ih, List.countP_cons, List.filter_cons]
      omega
    · by_cases h2 : MAX_FILE_CHANGES ≤ f.changes
      · have h3 : ¬ f.changes < MAX_FILE_CHANGES := by omega
        simp [List.foldl_cons, filterStep, h1, h2, h3, ih, List.countP_cons, List.filter_cons]
        omega
      · have h3 : f.changes < MAX_FILE_CHANGES := by omega
        simp [List.foldl_cons, filterStep, h1, h2, h3, ih, List.countP_cons, List.filter_cons]

/-- C3: the filter drops ignore-matched files, then oversized files, then
truncates to the first fifteen survivors; FilterStats records the input
length, the result length, the ignore-match count and the oversized count.
In particular, for twenty files with three ignore matches and two oversized
files the result has fifteen files and stats (20, 15, 3, 2). -/
theorem c3_filter_files (pats : List (String → Bool)) (files : List PRFile) :
    (filterFiles pats files).1 =
      (files.filter (fun f => !(matchesIgnore pats f) && decide (f.changes < MAX_FILE_CHANGES))).take MAX_FILES
    ∧ (filterFiles pats files).2 =
      { total := files.length,
        reviewed := ((files.filter (fun f => !(matchesIgnore pats f) && decide (f.changes < MAX_FILE_CHANGES))).take MAX_FILES).length,
        ignored := files.countP (fun f => matchesIgnore pats f),
        tooLarge := files.countP (fun f => !(matchesIgnore pats f) && decide (MAX_FILE_CHANGES ≤ f.changes)) }
    ∧ ((filterFiles exPatsC3 exFilesC3).1.length = 15
        ∧ (filterFiles exPatsC3 exFilesC3).2 = ⟨20, 15, 3, 2⟩) := by
  have h := filterStep_foldl pats files [] 0 0
  refine ⟨?_, ?_, ?_, ?_⟩
  · simp only [filterFiles]
    rw [h]
    simp
  · simp only [filterFiles]
    rw [h]
    simp
  · decide
  · decide

/-! ## C4 — majority merge threshold -/

/-- C4: with three passes the majority threshold is two — a deduplicated
finding is kept exactly when its fuzzy match appears in at least two of the
three passes, and a finding whose fuzzy match appears in only one pass is
never kept. -/
theorem c4_majority_merge (runs : List (List ReviewFinding)) (f : ReviewFinding)
    (hlen : runs.length = 3) :
    ((f ∈ mergeFindings runs ("majority")) ↔
      (f ∈ deduplicateFindings runs.flatten ∧
        2 ≤ (runs.filter (fun run => run.any (fun g => isSameFinding f g))).length))
    ∧ ((runs.filter (fun run => run.any (fun g => isSameFinding f g))).length = 1 →
        f ∉ mergeFindings runs ("majority")) := by
  have hmaj : mergeFindings runs ("majority") =
      (deduplicateFindings runs.flatten).filter (fun finding =>
        decide (2 ≤ (runs.filter (fun run => run.any (fun g => isSameFinding finding g))).length)) := by
    simp [mergeFindings, majorityThreshold, hlen]
  constructor
  · rw [hmaj]
    simp [List.mem_filter]
  · intro h1
    rw [hmaj]
    simp [List.mem_filter, h1]

/-- C4 witness: in the concrete three-pass example the bug finding (fuzzy
matched in passes one and two) survives the majority merge and the security
finding (present in pass one only) does not. -/
theorem c4_majority_merge_witness :
    (mkFinding ("a.ts") 10 ("bug")) ∈ mergeFindings exRunsC4 ("majority")
    ∧ (mkFinding ("b.ts") 5 ("security")) ∉ mergeFindings exRunsC4 ("majority") := by
  constructor
  · exact ((c4_majority_merge exRunsC4 (mkFinding ("a.ts") 10 ("bug")) (by decide)).1).mpr
      (by decide)
  · exact (c4_majority_merge exRunsC4 (mkFinding ("b.ts") 5 ("security")) (by decide)).2
      (by decide)

/-! ## C5 — union merge idempotence -/

/-- Splitting the dedup loop over an appended list: the tail is processed
with the seen-key set left by the head. -/
theorem dedupAux_append (ys : List ReviewFinding) :
    ∀ (xs : List ReviewFinding) (seen : List String),
      dedupAux seen (xs ++ ys) = dedupAux seen xs ++ dedupAux (dedupSeenAfter seen xs) ys := by
  intro xs
  induction xs with
  | nil => intro seen; simp [dedupAux, dedupSeenAfter]
  | cons f rest ih =>
    intro seen
    by_cases h : findingKey f ∈ seen
    · simp [dedupAux, dedupSeenAfter, h, ih]
    · simp [dedupAux, dedupSeenAfter, h, ih]

/-- The seen-key set only grows along the dedup loop. -/
theorem mem_dedupSeenAfter_mono :
    ∀ (xs : List ReviewFinding) (seen : List String) (k : String),
      k ∈ seen → k ∈ dedupSeenAfter seen xs := by
  intro xs
  induction xs with
  | nil => intro seen k h; simpa [dedupSeenAfter] using h
  | cons f rest ih =>
    intro seen k h
    by_cases hf : findingKey f ∈ seen
    · simpa [dedupSeenAfter, hf] using ih _ _ h
    · simpa [dedupSeenAfter, hf] using ih _ _ (List.mem_cons_of_mem _ h)

/-- After the dedup loop every processed finding's key is in the seen set. -/
theorem key_mem_dedupSeenAfter :
    ∀ (xs : List ReviewFinding) (seen : List String) (f : ReviewFinding),
      f ∈ xs → findingKey f ∈ dedupSeenAfter seen xs := by
  intro xs
  induction xs with
  | nil => intro seen f h; simp at h
  | cons g rest ih =>
    intro seen f h
    rcases List.mem_cons.mp h with h1 | h2
    · subst h1
      by_cases hg : findingKey f ∈ seen
      · simpa [dedupSeenAfter, hg] using mem_dedupSeenAfter_mono _ _ _ hg
      · simpa [dedupSeenAfter, hg] using
          mem_dedupSeenAfter_mono _ _ _ (List.mem_cons_self _ _)
    · by_cases hg : findingKey g ∈ seen
      · simpa [dedupSeenAfter, hg] using ih _ _ h2
      · simpa [dedupSeenAfter, hg] using ih _ _ h2

/-- A list whose keys are all already seen contributes nothing. -/
theorem dedupAux_eq_nil :
    ∀ (ys : List ReviewFinding) (seen : List String),
      (∀ f ∈ ys, findingKey f ∈ seen) → dedupAux seen ys = [] := by
  intro ys
  induction ys with
  | nil => intro seen _; simp [dedupAux]
  | cons f rest ih =>
    intro seen h
    have hf : findingKey f ∈ seen := h f (List.mem_cons_self _ _)
    simp [dedupAux, hf]
    exact ih _ (fun g hg => h g (List.mem_cons_of_mem _ hg))

/-- C5: merging a pass with itself under the union strategy equals the
deduplication of the single pass. -/
theorem c5_union_idempotent (P : List ReviewFinding) :
    mergeFindings [P, P] ("union") = deduplicateFindings P := by
  have h1 : mergeFindings [P, P] ("union") = deduplicateFindings (P ++ P) := by
    simp [mergeFindings]
  rw [h1]
  show dedupAux [] (P ++ P) = dedupAux [] P
  rw [dedupAux_append]
  have h2 : dedupAux (dedupSeenAfter [] P) P = [] :=
    dedupAux_eq_nil P _ (fun f hf => key_mem_dedupSeenAfter P [] f hf)
  simp [h2]

/-! ## C6 — model-fallback harness -/

/-- Every successfully instantiated provider carries exactly the model name
it was instantiated with. -/
theorem instantiateProvider_modelName (env : String → Option String)
    (p m : String) (pc : ProviderConfig) (inst : ProviderInstance)
    (h : instantiateProvider env p m pc = .ok inst) : inst.modelName = m := by
  unfold instantiateProvider at h
  split_ifs at h <;>
    first
      | (cases h; rfl)
      | (split at h <;> (simp_all [ProviderInstance.modelName]; try simp [← h]))

/-- C6: when the agent's resolved model name (split off after the first colon,
inner colons preserved) is not in the provider's models list, createProvider
substitutes the configured default model and logs one fallback warning — or
two when the default is also missing — and then proceeds to instantiation
regardless, so an ollama provider is still constructed, carrying the default
model name. -/
theorem c6_model_fallback (cfg : AgentConfig) (env : String → Option String)
    (agentName : String) (agent : Agent) (pc : ProviderConfig)
    (hagent : cfg.agents.lookup agentName = some agent)
    (hpc : cfg.llm.providers.lookup
      (splitAgentModel cfg.llm.default_provider agent.model).1 = some pc)
    (habs : checkModelAvailability pc
      (splitAgentModel cfg.llm.default_provider agent.model).2 = false) :
    (createProvider cfg env agentName =
      (instantiateProvider env (splitAgentModel cfg.llm.default_provider agent.model).1
          cfg.llm.default_model pc).map
        (fun inst => (inst, if checkModelAvailability pc cfg.llm.default_model then 1 else 2)))
    ∧ (∀ inst w, createProvider cfg env agentName = .ok (inst, w) →
        inst.modelName = cfg.llm.default_model ∧
        w = (if checkModelAvailability pc cfg.llm.default_model then 1 else 2))
    ∧ ((splitAgentModel cfg.llm.default_provider agent.model).1 = ("ollama") →
        ∃ inst, createProvider cfg env agentName =
          .ok (inst, if checkModelAvailability pc cfg.llm.default_model then 1 else 2)
          ∧ inst.modelName = cfg.llm.default_model)
    ∧ splitAgentModel cfg.llm.default_provider (("ollama:qwen2.5-coder:14b")) =
        (("ollama"), ("qwen2.5-coder:14b")) := by
  have hmain : createProvider cfg env agentName =
      (instantiateProvider env (splitAgentModel cfg.llm.default_provider agent.model).1
          cfg.llm.default_model pc).map
        (fun inst => (inst, if checkModelAvailability pc cfg.llm.default_model then 1 else 2)) := by
    unfold createProvider
    simp only [hagent]
    simp only [hpc]
    by_cases hdef : checkModelAvailability pc cfg.llm.default_model = true
    · simp only [habs, hdef, Bool.false_eq_true, if_false, if_true]
      cases hinst : instantiateProvider env
          (splitAgentModel cfg.llm.default_provider agent.model).1
          cfg.llm.default_model pc <;> simp [hinst, Except.map]
    · simp only [habs, hdef, Bool.false_eq_true, if_false]
      cases hinst : instantiateProvider env
          (splitAgentModel cfg.llm.default_provider agent.model).1
          cfg.llm.default_model pc <;> simp [hinst, Except.map]
  refine ⟨hmain, ?_, ?_, ?_⟩
  · intro inst w hok
    rw [hmain] at hok
    cases hinst : instantiateProvider env
        (splitAgentModel cfg.llm.default_provider agent.model).1
        cfg.llm.default_model pc with
    | ok i =>
      rw [hinst] at hok
      simp [Except.map] at hok
      refine ⟨?_, hok.2.symm⟩
      rw [← hok.1]
      exact instantiateProvider_modelName env _ _ pc i hinst
    | error e =>
      rw [hinst] at hok
      simp [Except.map] at hok
  · intro holl
    rw [hmain, holl]
    refine ⟨.ollama (pc.host.getD ("http://localhost:11434")) cfg.llm.default_model, ?_, rfl⟩
    simp [instantiateProvider, Except.map]
  · rfl

/-- C6 witness: the concrete ollama configuration whose models list contains
neither the requested model nor the default resolves non-fatally to the
default model with two fallback warnings. -/
theorem c6_model_fallback_witness :
    ∃ inst, createProvider exCfgC6 (fun _ => none) ("pr-review") = .ok (inst, 2)
      ∧ inst.modelName = ("codellama") := by
  have h := c6_model_fallback exCfgC6 (fun _ => none) ("pr-review")
    { model := ("ollama:qwen2.5-coder:14b"), context := none }
    { host := none, api_key_env := none, base_url := none, models := [("llama3")] }
    (by decide) (by decide) (by decide)
  have h3 := h.2.2.1 (by decide)
  simpa using h3

/-! ## C7 — rules-engine TS2339 special case -/

/-- C7: for a TS2339 group whose first message matches the property pattern,
a property in the known base-class set yields the high-confidence batch edit
targeting src/providers/api-provider-base.ts, any other property yields a
low-confidence manual result with three steps, and the dispatcher routes the
group to this rule. -/
theorem c7_ts2339_rule (g : ErrorGroup) (e : TSError) (tl : List TSError)
    (p t : String)
    (hcode : g.code = ("TS2339"))
    (herr : g.errors = e :: tl)
    (hmatch : ts2339Extract e.message = some (p, t)) :
    (p ∈ [("host"), ("model"), ("maxOutputTokens"), ("temperature")] →
      rule3Analyze g =
        { confidence := .high, fixType := .batchEdit,
          description := ("Change private properties to protected in base class so subclasses can access them"),
          fileChanges := some [⟨("src/providers/api-provider-base.ts"),
            ("In the constructor, change all 'private host', 'private model' declarations to 'protected host', 'protected model'. Keep 'public maxOutputTokens' as is."),
            none⟩],
          commands := none, manualSteps := none })
    ∧ (p ∉ [("host"), ("model"), ("maxOutputTokens"), ("temperature")] →
        (rule3Analyze g).confidence = .low ∧ (rule3Analyze g).fixType = .manual ∧
        (rule3Analyze g).fileChanges = none ∧
        ((rule3Analyze g).manualSteps.getD []).length = 3)
    ∧ analyzeWithRules [g] = { fixes := [(g, rule3Analyze g)], unknown := [] } := by
  have hfm : firstErrorMessage g = e.message := by
    simp [firstErrorMessage, herr]
  refine ⟨?_, ?_, ?_⟩
  · intro hp
    simp [rule3Analyze, hfm, hmatch, hp]
  · intro hp
    simp [rule3Analyze, hfm, hmatch, hp]
  · have hrule : findMatchingRule g = some
        { codes := [("TS2339")], pattern := some (fun m => (ts2339Extract m).isSome),
          analyze := rule3Analyze } := by
      simp [findMatchingRule, TS_ERROR_RULES, List.find?, ruleMatches, hcode, hfm, hmatch]
    simp [analyzeWithRules, hrule]

/-- C7 witness: the host property produces the base-class batch edit; the foo
property produces the low-confidence manual result with three steps. -/
theorem c7_ts2339_rule_witness :
    ((rule3Analyze exG2339Host).fileChanges.getD []).map FileChange.path =
      [("src/providers/api-provider-base.ts")]
    ∧ (rule3Analyze exG2339Host).confidence = .high
    ∧ (rule3Analyze exG2339Host).fixType = .batchEdit
    ∧ (rule3Analyze exG2339Foo).confidence = .low
    ∧ (rule3Analyze exG2339Foo).fixType = .manual
    ∧ ((rule3Analyze exG2339Foo).manualSteps.getD []).length = 3 := by
  have h1 := c7_ts2339_rule exG2339Host
    ⟨("src/providers/ollama.ts"), 12, 3, ("TS2339"),
      ("Property 'host' does not exist on type 'OllamaProvider'"), ("")⟩ []
    ("host") ("OllamaProvider") (by decide) (by decide) (by decide)
  have h2 := c7_ts2339_rule exG2339Foo
    ⟨("src/x.ts"), 4, 1, ("TS2339"),
      ("Property 'foo' does not exist on type 'Bar'"), ("")⟩ []
    ("foo") ("Bar") (by decide) (by decide) (by decide)
  have hhost := h1.1 (by decide)
  have hfoo := h2.2.1 (by decide)
  rw [hhost]
  exact ⟨rfl, rfl, rfl, hfoo.1, hfoo.2.1, hfoo.2.2.2⟩

/-! ## C9 — dedup-key lifecycle -/

/-- C9: a delivery whose key is in the processing set changes nothing and
schedules no review; a completed task removes exactly its key from the set on
every outcome; and from an empty start two rapid duplicate deliveries start
exactly one review, after which the key is free and a later delivery for the
same pull request is scheduled normally. -/
theorem c9_dedup_lifecycle :
    (∀ (st : ShellState) (key : String), st.processing.contains key = true →
      handleDelivery st key = st)
    ∧ (∀ (st : ShellState) (key : String) (o : ReviewOutcome),
        (runScheduled st key o).processing = st.processing.erase key)
    ∧ (∀ (st : ShellState) (key : String) (o : ReviewOutcome),
        st.processing.Nodup → key ∉ (runScheduled st key o).processing)
    ∧ (∀ (key : String) (o : ReviewOutcome),
        handleDelivery (handleDelivery initialShellState key) key =
          handleDelivery initialShellState key
        ∧ (runScheduled (handleDelivery initialShellState key) key o).reviewsStarted = [key]
        ∧ (runScheduled (handleDelivery initialShellState key) key o).processing = []
        ∧ (handleDelivery (runScheduled (handleDelivery initialShellState key) key o)
            key).processing = [key]
        ∧ (handleDelivery (runScheduled (handleDelivery initialShellState key) key o)
            key).scheduled = [key]) := by
  have h2 : ∀ (st : ShellState) (key : String) (o : ReviewOutcome),
      (runScheduled st key o).processing = st.processing.erase key := by
    intro st key o
    cases o <;> simp [runScheduled]
  refine ⟨?_, h2, ?_, ?_⟩
  · intro st key h
    simp [handleDelivery, List.mem_of_elem_eq_true h]
  · intro st key o hnd hmem
    rw [h2] at hmem
    exact ((List.Nodup.mem_erase_iff hnd).mp hmem).1 rfl
  · intro key o
    have hd1 : handleDelivery initialShellState key =
        { processing := [key], scheduled := [key], reviewsStarted := [], errorComments := 0 } := by
      simp [handleDelivery, initialShellState]
    refine ⟨?_, ?_, ?_, ?_, ?_⟩ <;>
      rw [hd1] <;> cases o <;> simp [handleDelivery, runScheduled]

/-- C9 witness: the lifecycle properties applied to a concrete key and
state. -/
theorem c9_dedup_lifecycle_witness :
    handleDelivery ⟨[("octo/repo#7")], [("octo/repo#7")], [], 0⟩ ("octo/repo#7") =
      ⟨[("octo/repo#7")], [("octo/repo#7")], [], 0⟩
    ∧ ("octo/repo#7") ∉
        (runScheduled ⟨[("octo/repo#7")], [("octo/repo#7")], [], 0⟩ ("octo/repo#7")
          .reviewFailedCommentFailed).processing
    ∧ (runScheduled (handleDelivery (handleDelivery initialShellState ("octo/repo#7"))
        ("octo/repo#7")) ("octo/repo#7") .success).reviewsStarted = [("octo/repo#7")] := by
  refine ⟨?_, ?_, ?_⟩
  · exact c9_dedup_lifecycle.1 _ _ (by decide)
  · exact c9_dedup_lifecycle.2.2.1 _ _ .reviewFailedCommentFailed (by decide)
  · exact (c9_dedup_lifecycle.2.2.2 ("octo/repo#7") .success).2.1

/-! ## C10 — rules-engine partition invariant -/

/-- The matched groups of the dispatcher, in input order. -/
theorem analyzeWithRules_fixes_map (groups : List ErrorGroup) :
    (analyzeWithRules groups).fixes.map Prod.fst =
      groups.filter (fun g => (findMatchingRule g).isSome) := by
  induction groups with
  | nil => simp [analyzeWithRules]
  | cons g rest ih =>
    cases h : findMatchingRule g <;> simp [analyzeWithRules, h, ih]

/-- The unknown groups of the dispatcher, in input order. -/
theorem analyzeWithRules_unknown (groups : List ErrorGroup) :
    (analyzeWithRules groups).unknown =
      groups.filter (fun g => (findMatchingRule g).isNone) := by
  induction groups with
  | nil => simp [analyzeWithRules]
  | cons g rest ih =>
    cases h : findMatchingRule g <;> simp [analyzeWithRules, h, ih]

/-- Every emitted fix is the first matching rule's analysis of its group. -/
theorem analyzeWithRules_fix_first (groups : List ErrorGroup) :
    ∀ p ∈ (analyzeWithRules groups).fixes,
      ∃ r, findMatchingRule p.1 = some r ∧ p.2 = r.analyze p.1 := by
  induction groups with
  | nil => simp [analyzeWithRules]
  | cons g rest ih =>
    intro p hp
    cases h : findMatchingRule g <;> rw [analyzeWithRules] at hp <;> rw [h] at hp
    · exact ih p hp
    · rcases List.mem_cons.mp hp with h1 | h2
      · subst h1
        exact ⟨_, h, rfl⟩
      · exact ih p h2

/-- C10: the dispatcher partitions its input — every group lands exactly once,
in input order, in fixes when some rule's codes contain its code and the
rule's pattern (when present) matches its first error's message, and in
unknown otherwise; each emitted FixResult is the first matching rule's
analysis. -/
theorem c10_rules_partition (groups : List ErrorGroup)
    (hne : ∀ g ∈ groups, g.errors ≠ []) :
    ((analyzeWithRules groups).fixes.map Prod.fst =
      groups.filter (fun g => (findMatchingRule g).isSome))
    ∧ ((analyzeWithRules groups).unknown =
        groups.filter (fun g => (findMatchingRule g).isNone))
    ∧ (∀ g ∈ groups, ((findMatchingRule g).isSome ↔
        ∃ r ∈ TS_ERROR_RULES, g.code ∈ r.codes ∧
          (∀ test, r.pattern = some test → test (firstErrorMessage g) = true)))
    ∧ (∀ p ∈ (analyzeWithRules groups).fixes,
        ∃ r, findMatchingRule p.1 = some r ∧ p.2 = r.analyze p.1) := by
  refine ⟨analyzeWithRules_fixes_map groups, analyzeWithRules_unknown groups, ?_,
    analyzeWithRules_fix_first groups⟩
  intro g _
  rw [findMatchingRule, List.find?_isSome]
  constructor
  · rintro ⟨r, hr, hm⟩
    rw [ruleMatches, Bool.and_eq_true] at hm
    refine ⟨r, hr, ?_, ?_⟩
    · exact List.mem_of_elem_eq_true hm.1
    · intro test htest
      have := hm.2
      rw [htest] at this
      exact this
  · rintro ⟨r, hr, hmem, htest⟩
    refine ⟨r, hr, ?_⟩
    rw [ruleMatches, Bool.and_eq_true]
    refine ⟨List.elem_eq_true_of_mem hmem, ?_⟩
    cases hp : r.pattern with
    | none => rfl
    | some test => exact htest test hp

/-- C10 witness: on a two-group input the TS2339 group is routed to the rule
table and the unknown-code group is escalated, each exactly once and in
order. -/
theorem c10_rules_partition_witness :
    ((analyzeWithRules [exG2339Host, exUnknownGroup]).fixes.map Prod.fst = [exG2339Host])
    ∧ ((analyzeWithRules [exG2339Host, exUnknownGroup]).unknown = [exUnknownGroup]) := by
  have h := c10_rules_partition [exG2339Host, exUnknownGroup] (by decide)
  refine ⟨?_, ?_⟩
  · rw [h.1]; decide
  · rw [h.2.1]; decide

/-! ## C8 — response-parsing robustness -/

/-- Trimming only removes characters. -/
theorem mem_trimList {c : Char} {s : List Char} (h : c ∈ trimList s) : c ∈ s := by
  unfold trimList at h
  rw [List.mem_reverse] at h
  have h2 : c ∈ (s.dropWhile isJsWhitespace).reverse :=
    (List.dropWhile_sublist _).mem h
  rw [List.mem_reverse] at h2
  exact (List.dropWhile_sublist _).mem h2

/-- Leading-fence stripping only removes characters. -/
theorem mem_stripLeadingFence {c : Char} {s : List Char}
    (h : c ∈ stripLeadingFence s) : c ∈ s := by
  simp only [stripLeadingFence] at h
  split_ifs at h
  · exact h
  · exact (List.dropWhile_sublist _).mem (mem_trimList h)
  · exact h

/-- Trailing-fence stripping only removes characters. -/
theorem mem_stripTrailingFence {c : Char} {s : List Char}
    (h : c ∈ stripTrailingFence s) : c ∈ s := by
  simp only [stripTrailingFence] at h
  split_ifs at h
  · exact (List.take_sublist _ _).mem (mem_trimList h)
  · exact h

/-- The whole massaging pipeline only removes characters. -/
theorem mem_massageResponse {c : Char} {s : List Char}
    (h : c ∈ massageResponse s) : c ∈ s :=
  mem_trimList (mem_stripLeadingFence (mem_stripTrailingFence h))

/-- A text without an opening bracket fails the bracket extraction. -/
theorem extractArr_eq_none {s : List Char} (h : ('[') ∉ s) :
    extractArr s = none := by
  have h1 : s.dropWhile (fun c => decide (c ≠ ('['))) = [] := by
    rw [List.dropWhile_eq_nil_iff]
    intro x hx
    simp only [decide_eq_true_eq]
    intro hEq
    exact h (hEq ▸ hx)
  simp only [extractArr]
  rw [h1]
  rfl

/-- The guardrail on a bracketed array flanked by bracket-free text: the
extracted candidate is exactly the array, from the first opening bracket to
the last closing one. -/
theorem extractArr_append (pre mid post : List Char)
    (hpre : ('[') ∉ pre) (hpost : (']') ∉ post) :
    extractArr (pre ++ (('[') :: (mid ++ ((']') :: post)))) = some (arrOf mid) := by
  have h1 : pre.dropWhile (fun c => decide (c ≠ ('['))) = [] := by
    rw [List.dropWhile_eq_nil_iff]
    intro x hx
    simp only [decide_eq_true_eq]
    intro hEq
    exact hpre (hEq ▸ hx)
  have h2 : post.reverse.dropWhile (fun c => decide (c ≠ (']'))) = [] := by
    rw [List.dropWhile_eq_nil_iff]
    intro x hx
    simp only [decide_eq_true_eq]
    intro hEq
    exact hpost (hEq ▸ List.mem_reverse.mp hx)
  simp only [extractArr, List.dropWhile_append, h1, List.isEmpty_nil, if_true]
  have h3 : List.dropWhile (fun c => decide (c ≠ ('[')))
      ((('[') :: (mid ++ ((']') :: post)))) = ('[') :: (mid ++ ((']') :: post)) := by
    rw [List.dropWhile_cons_of_neg]
    simp
  rw [h3]
  have h4 : (('[') :: (mid ++ ((']') :: post))).reverse =
      post.reverse ++ ((']') :: (mid.reverse ++ [('[')])) := by
    simp
  rw [h4]
  rw [List.dropWhile_append, h2]
  have h5 : List.dropWhile (fun c => decide (c ≠ (']')))
      ((']') :: (mid.reverse ++ [('[')])) = (']') :: (mid.reverse ++ [('[')]) := by
    rw [List.dropWhile_cons_of_neg]
    simp
  simp only [List.isEmpty_nil, if_true, h5]
  have h6 : (((']') :: (mid.reverse ++ [('[')]))).reverse = arrOf mid := by
    simp [arrOf]
  rw [h6]
  simp [arrOf]

/-- The wrapped response is left unchanged by trimming (its ends are prose)
and by fence stripping (it neither starts nor ends with a fence). -/
theorem massage_wrapResponse (mid : List Char) :
    massageResponse (wrapResponse mid) = wrapResponse mid := by
  have hrev : (wrapResponse mid).reverse =
      postText.reverse ++ ((']') :: (mid.reverse ++ (('[') :: preText.reverse))) := by
    simp [wrapResponse]
  have h1 : (wrapResponse mid).dropWhile isJsWhitespace = wrapResponse mid := by
    show List.dropWhile _ (preText ++ _) = _
    rw [List.dropWhile_append]
    have hp : preText.dropWhile isJsWhitespace = preText := rfl
    rw [hp]
    simp [wrapResponse, preText]
  have h2 : (wrapResponse mid).reverse.dropWhile isJsWhitespace =
      (wrapResponse mid).reverse := by
    rw [hrev, List.dropWhile_append]
    have hp : postText.reverse.dropWhile isJsWhitespace = postText.reverse := rfl
    rw [hp]
    have : postText.reverse.isEmpty = false := rfl
    simp [this]
  have htrim : trimList (wrapResponse mid) = wrapResponse mid := by
    unfold trimList
    rw [h1, h2, List.reverse_reverse]
  have hlead : stripLeadingFence (wrapResponse mid) = wrapResponse mid := by
    simp only [stripLeadingFence]
    have hc : fenceMarker.isPrefixOf (wrapResponse mid) = false := rfl
    rw [hc]
    simp
  have htrail : stripTrailingFence (wrapResponse mid) = wrapResponse mid := by
    simp only [stripTrailingFence]
    have hc : fenceMarker.isSuffixOf (wrapResponse mid) = false := by
      show (fenceMarker.reverse).isPrefixOf (wrapResponse mid).reverse = false
      rw [hrev]
      rfl
    rw [hc]
    simp
  unfold massageResponse
  rw [htrim, hlead, htrail]

/-- The bare array is left unchanged by the massaging pipeline. -/
theorem massage_arrOf (mid : List Char) :
    massageResponse (arrOf mid) = arrOf mid := by
  have hrev : (arrOf mid).reverse = (']') :: (mid.reverse ++ [('[')]) := by
    simp [arrOf]
  have h1 : (arrOf mid).dropWhile isJsWhitespace = arrOf mid := rfl
  have h2 : (arrOf mid).reverse.dropWhile isJsWhitespace = (arrOf mid).reverse := by
    rw [hrev]
    rfl
  have htrim : trimList (arrOf mid) = arrOf mid := by
    unfold trimList
    rw [h1, h2, List.reverse_reverse]
  have hlead : stripLeadingFence (arrOf mid) = arrOf mid := by
    simp only [stripLeadingFence]
    have hc : fenceMarker.isPrefixOf (arrOf mid) = false := rfl
    rw [hc]
    simp
  have htrail : stripTrailingFence (arrOf mid) = arrOf mid := by
    simp only [stripTrailingFence]
    have hc : fenceMarker.isSuffixOf (arrOf mid) = false := by
      show (fenceMarker.reverse).isPrefixOf (arrOf mid).reverse = false
      rw [hrev]
      rfl
    rw [hc]
    simp
  unfold massageResponse
  rw [htrim, hlead, htrail]

/-- C8: response parsing is total — a fenced array with prose around it
parses exactly as the bare array (the candidate is the substring from the
first opening to the last closing bracket); a response with no opening
bracket parses to the empty list; and a candidate the JSON step rejects also
parses to the empty list. -/
theorem c8_parse_robustness :
    (∀ (jp : List Char → Option (List ReviewFinding)) (mid : List Char),
      parseReviewResponse jp (wrapResponse mid) = parseReviewResponse jp (arrOf mid))
    ∧ (∀ (jp : List Char → Option (List ReviewFinding)) (s : List Char),
        ('[') ∉ s → parseReviewResponse jp s = [])
    ∧ (∀ (jp : List Char → Option (List ReviewFinding)) (s t : List Char),
        extractArr (massageResponse s) = some t → jp t = none →
        parseReviewResponse jp s = []) := by
  refine ⟨?_, ?_, ?_⟩
  · intro jp mid
    have hw : extractArr (massageResponse (wrapResponse mid)) = some (arrOf mid) := by
      rw [massage_wrapResponse]
      exact extractArr_append preText mid postText (by decide) (by decide)
    have ha : extractArr (massageResponse (arrOf mid)) = some (arrOf mid) := by
      rw [massage_arrOf]
      have := extractArr_append [] mid [] (by simp) (by simp)
      simpa [arrOf] using this
    simp [parseReviewResponse, hw, ha]
  · intro jp s h
    have h1 : ('[') ∉ massageResponse s := fun hm => h (mem_massageResponse hm)
    simp [parseReviewResponse, extractArr_eq_none h1]
  · intro jp s t hext hjp
    simp [parseReviewResponse, hext, hjp]

/-- C8 witness: the theorem applied to the concrete fenced response, a
bracket-free response, and a candidate the JSON stand-in rejects. -/
theorem c8_parse_robustness_witness :
    parseReviewResponse exJsonParse (wrapResponse []) =
      parseReviewResponse exJsonParse (arrOf [])
    ∧ parseReviewResponse exJsonParse (("no array here").toList) = []
    ∧ parseReviewResponse exJsonParse (("[oops]").toList) = [] := by
  refine ⟨c8_parse_robustness.1 exJsonParse [], ?_, ?_⟩
  · exact c8_parse_robustness.2.1 exJsonParse (("no array here").toList) (by decide)
  · exact c8_parse_robustness.2.2 exJsonParse (("[oops]").toList) (("[oops]").toList)
      (by decide) (by decide)

/-! ## C1 — diff-hunk line validation -/

/-- Every header the non-overlapping scan reports is a hunk-header match at
some position of the scanned text. -/
theorem scanHunksAux_sound :
    ∀ (fuel : Nat) (s : List Char) (c d : Nat),
      (c, d) ∈ scanHunksAux fuel s →
      ∃ i rest, matchHunkAt (s.drop i) = some (c, d, rest) := by
  intro fuel
  induction fuel with
  | zero => intro s c d h; simp [scanHunksAux] at h
  | succ n ih =>
    intro s c d h
    cases s with
    | nil => simp [scanHunksAux] at h
    | cons x xs =>
      rw [scanHunksAux] at h
      cases hm : matchHunkAt (x :: xs) with
      | none =>
        rw [hm] at h
        obtain ⟨i, rest, hm2⟩ := ih xs c d h
        exact ⟨i + 1, rest, by simpa using hm2⟩
      | some t =>
        obtain ⟨c2, d2, rest0⟩ := t
        rw [hm] at h
        rcases List.mem_cons.mp h with h1 | h1
        · refine ⟨0, rest0, ?_⟩
          rw [List.drop_zero, hm]
          rw [Prod.mk.injEq] at h1
          rw [h1.1, h1.2]
        · obtain ⟨i, rest, hm2⟩ := ih _ c d h1
          refine ⟨i + ((x :: xs).length - rest0.length), rest, ?_⟩
          rw [List.drop_drop] at hm2
          rw [Nat.add_comm]
          exact hm2

/-- Soundness half of the validator: an accepted line lies inside a hunk
header occurring in the patch text. -/
theorem isLineInHunk_sound (patch : List Char) (line : Nat)
    (h : isLineInHunk patch line = true) : specHunkAccepts patch line = true := by
  rw [isLineInHunk, List.any_eq_true] at h
  obtain ⟨⟨c, d⟩, hmem, hf⟩ := h
  rw [Bool.and_eq_true, decide_eq_true_eq, decide_eq_true_eq] at hf
  obtain ⟨i, rest, hm⟩ := scanHunksAux_sound patch.length patch c d hmem
  have hi : i < patch.length + 1 := by
    by_contra hle
    push_neg at hle
    rw [List.drop_eq_nil_of_le (by omega)] at hm
    exact Option.noConfusion
      (show (none : Option (Nat × Nat × List Char)) = some (c, d, rest) from hm)
  rw [specHunkAccepts, List.any_eq_true]
  refine ⟨i, List.mem_range.mpr hi, ?_⟩
  simp only [hm]
  simp [hf.1, hf.2]

/-- C1 amended: the validator accepts exactly the lines covered by the
non-overlapping left-to-right scan — so any accepted line lies inside a hunk
header contained in the patch, a patch in which no position starts a hunk
header accepts no line, and for the single-header patch the accepted lines
are exactly 20 through 27 while a headerless patch accepts nothing.  (The
converse of the containment fails when one header occurrence overlaps an
earlier match: see the counterexample.) -/
theorem c1_hunk_validation_amended :
    (∀ (patch : List Char) (line : Nat), isLineInHunk patch line = true →
      specHunkAccepts patch line = true)
    ∧ (∀ (patch : List Char) (line : Nat),
        (∀ i ≤ patch.length, matchHunkAt (patch.drop i) = none) →
        isLineInHunk patch line = false)
    ∧ (∀ line : Nat, isLineInHunk examplePatch line = true ↔ (20 ≤ line ∧ line < 28))
    ∧ (∀ line : Nat, isLineInHunk headerlessPatch line = false) := by
  refine ⟨isLineInHunk_sound, ?_, ?_, ?_⟩
  · intro patch line hnone
    cases hb : isLineInHunk patch line with
    | false => rfl
    | true =>
      exfalso
      have hs := isLineInHunk_sound patch line hb
      rw [specHunkAccepts, List.any_eq_true] at hs
      obtain ⟨i, hir, hgi⟩ := hs
      have hile : i ≤ patch.length := by
        have := List.mem_range.mp hir
        omega
      simp only [hnone i hile] at hgi
      exact Bool.noConfusion hgi
  · have hsc : scanHunks examplePatch = [(20, 8)] := by decide
    intro line
    rw [isLineInHunk, hsc]
    simp
  · have hsc : scanHunks headerlessPatch = [] := by decide
    intro line
    rw [isLineInHunk, hsc]
    rfl

/-- C1 counterexample: the overlap patch contains the hunk-header substring
with new-side start 20 and length 8 (the claim's acceptance condition holds
for line 20), yet the validator rejects line 20 — the scan consumed the
header's opening characters as part of the previous match. -/
theorem c1_hunk_validation_counterexample :
    isLineInHunk overlapPatch 20 = false ∧ specHunkAccepts overlapPatch 20 = true := by
  decide

/-- C1 witness: the amended theorem applied at the example patches — line 20
of the single-header patch is accepted and lies in a contained header, lines
19 and 28 are rejected, and the headerless patch accepts nothing. -/
theorem c1_hunk_validation_witness :
    specHunkAccepts examplePatch 20 = true
    ∧ isLineInHunk examplePatch 20 = true
    ∧ isLineInHunk examplePatch 19 = false
    ∧ isLineInHunk examplePatch 28 = false
    ∧ isLineInHunk headerlessPatch 5 = false := by
  refine ⟨c1_hunk_validation_amended.1 examplePatch 20 (by decide), ?_, ?_, ?_, ?_⟩
  · exact (c1_hunk_validation_amended.2.2.1 20).mpr (by omega)
  · cases hb : isLineInHunk examplePatch 19 with
    | false => rfl
    | true =>
      have := (c1_hunk_validation_amended.2.2.1 19).mp hb
      omega
  · cases hb : isLineInHunk examplePatch 28 with
    | false => rfl
    | true =>
      have := (c1_hunk_validation_amended.2.2.1 28).mp hb
      omega
  · exact c1_hunk_validation_amended.2.2.2 5

end Pedal
